import Mathlib

/-!
Verification of the attendance accounting engine of the repository
(client-side script: `semesterStart`/`semesterEnd`, `monthKey`,
`toggleDayStatus`, `getStats`, `getMonthlyStats`, `updateCardStats`,
`isMonthAllowed`, and the day-classification cascade inside
`renderCalendar`).

Embedding conventions:
* JavaScript `Date` values constructed as `new Date(year, month, day)`
  (month 0-based, always a valid calendar day in the source's loops) are
  modelled as plain `(year, month, day)` triples; comparison of such
  dates by timestamp coincides with lexicographic comparison of the
  triples.  `new Date()` ("today") is modelled by its calendar date: for
  a cell date `d` at midnight, `d > now` holds exactly when `d`'s
  calendar date is after today's calendar date, and `now < semesterEnd`
  (midnight) holds exactly when today's calendar date is before
  `semesterEnd`'s, so no time-of-day component is needed.
* The module-level globals read by the source (`semesterStart`,
  `semesterEnd`, `attendanceData`, `offDaysData`, and the current date)
  are passed as explicit parameters; the repository's concrete window is
  defined below as `semesterStart`/`semesterEnd`.
* JavaScript objects (`attendanceData[classId][key]`) are modelled as
  association lists with first-match lookup; the guarded reads
  `(obj[classId] && obj[classId][key]) || []` become `getDays`.
* Counters are `Nat`; `Math.floor` on a nonnegative quotient is `Nat`
  division, and the clamp `if (x < 0) x = 0` after a subtraction is
  `Nat` truncated subtraction.
* The percentage pipeline `Math.round(((c - a) / c) * 100)` is
  computed by the source in binary64 floating point: the integer
  subtraction is exact, the division and the multiplication each round
  to the nearest binary64 value (`fl64`, round-to-nearest ties-to-even
  on 53 significant bits), and `Math.round` takes the closest integer
  (ties toward `+∞`) of the exact value of the resulting float.
-/

namespace Attendance

/-- A calendar date in the JavaScript convention: `month` is 0-based
(0 = January .. 11 = December). -/
structure Date where
  year : Nat
  month : Nat
  day : Nat
deriving DecidableEq, Repr

/-- Timestamp comparison `a < b` of two `new Date(y, m, d)` values:
lexicographic on (year, month, day). -/
def Date.ltb (a b : Date) : Bool :=
  decide (a.year < b.year ∨ (a.year = b.year ∧
    (a.month < b.month ∨ (a.month = b.month ∧ a.day < b.day))))

/-- Timestamp comparison `a <= b` (`a >= b` is `Date.leb b a`). -/
def Date.leb (a b : Date) : Bool := !Date.ltb b a

/-- Gregorian leap-year test (what `new Date` implements). -/
def isLeapYear (y : Nat) : Bool :=
  (y % 4 == 0 && y % 100 != 0) || y % 400 == 0

/-- Length of the 0-based month `m` of a (non-)leap year. -/
def monthLength (leap : Bool) (m : Nat) : Nat :=
  match m with
  | 0 => 31
  | 1 => if leap then 29 else 28
  | 2 => 31
  | 3 => 30
  | 4 => 31
  | 5 => 30
  | 6 => 31
  | 7 => 31
  | 8 => 30
  | 9 => 31
  | 10 => 30
  | _ => 31

/-- Model of `new Date(year, month + 1, 0).getDate()`: the number of
days in the 0-based month `month` of `year`. -/
def daysInMonth (year month : Nat) : Nat :=
  monthLength (isLeapYear year) month

/-- Days of the year strictly before the 0-based month `m`. -/
def daysBeforeMonth (leap : Bool) : Nat → Nat
  | 0 => 0
  | m + 1 => daysBeforeMonth leap m + monthLength leap m

/-- Rata-die day number of the proleptic Gregorian date
(`year`, 0-based `month`, `day`); day 1 = Jan 1 of year 1, a Monday. -/
def rataDie (year month day : Nat) : Nat :=
  365 * (year - 1) + (year - 1) / 4 - (year - 1) / 100 + (year - 1) / 400
    + daysBeforeMonth (isLeapYear year) month + day

/-- Model of `new Date(year, month, day).getDay()`:
0 = Sunday .. 6 = Saturday. -/
def getDay (year month day : Nat) : Nat :=
  rataDie year month day % 7

/-- The weekend test used throughout the source:
`wd === 0 || wd === 6`. -/
def isWeekendDay (year month day : Nat) : Bool :=
  getDay year month day == 0 || getDay year month day == 6

/-- Model of `String(n).padStart(2, '0')` for the month number. -/
def pad2 (n : Nat) : String :=
  if n < 10 then "0" ++ toString n else toString n

/-- The function `monthKey(year, month)`: the `"YYYY-MM"` bucket key
(`month` 0-based, printed 1-based and zero-padded). -/
def monthKey (year month : Nat) : String :=
  toString year ++ "-" ++ pad2 (month + 1)

/-- The constant `semesterStart = new Date(2025, 6, 27)`
(July 27, 2025). -/
def semesterStart : Date := ⟨2025, 6, 27⟩

/-- The constant `semesterEnd = new Date(2025, 10, 22)`
(November 22, 2025). -/
def semesterEnd : Date := ⟨2025, 10, 22⟩

/-- One class's data: `"YYYY-MM"` key → marked day numbers. -/
abbrev MonthMap := List (String × List Nat)

/-- Shape of `attendanceData` / `offDaysData`: classId → month map. -/
abbrev Store := List (String × MonthMap)

/-- The guarded read `(obj[classId] && obj[classId][key]) || []`. -/
def getDays (s : Store) (classId key : String) : List Nat :=
  (((s.lookup classId).getD []).lookup key).getD []

/-- Object-property assignment `obj[k] = v` on an association list:
replace the first binding of `k`, or append a new one. -/
def setEntry {α : Type} : List (String × α) → String → α → List (String × α)
  | [], k, v => [(k, v)]
  | (k', v') :: rest, k, v =>
      if k' == k then (k, v) :: rest else (k', v') :: setEntry rest k v

/-- Ascending insertion used to model `daysArray.sort((a, b) => a - b)`. -/
def sortInsert (d : Nat) : List Nat → List Nat
  | [] => [d]
  | x :: xs => if d ≤ x then d :: x :: xs else x :: sortInsert d xs

/-- Sort a day list ascending (stable, as the engines' `sort` is). -/
def sortAsc : List Nat → List Nat
  | [] => []
  | x :: xs => sortInsert x (sortAsc xs)

/-- The core of `toggleDayStatus` on one day list: remove the first
occurrence of `day` if present (`indexOf`/`splice`), else push it and
sort ascending. -/
def toggleDays (days : List Nat) (day : Nat) : List Nat :=
  if days.contains day then days.erase day else sortAsc (days ++ [day])

/-- The `type` argument of `toggleDayStatus` (`'absent' | 'off'`). -/
inductive ToggleKind where
  | absent
  | off
deriving DecidableEq, Repr

/-- Effect of `toggleDayStatus` on the selected store: initialise the
missing levels, toggle the day list for `monthKey(year, month)`, and
write it back. -/
def applyToggle (s : Store) (classId : String) (day month year : Nat) :
    Store :=
  let key := monthKey year month
  let mm := (s.lookup classId).getD []
  let days := (mm.lookup key).getD []
  setEntry s classId (setEntry mm key (toggleDays days day))

/-- The function `toggleDayStatus(classId, day, month, year, type)`:
mutate the
store selected by `type` (`attendanceData` for `'absent'`,
`offDaysData` for `'off'`), leaving the other untouched.  The save /
re-render side effects are outside the data model. -/
def toggleDayStatus (attendanceData offDaysData : Store) (classId : String)
    (day month year : Nat) (type_ : ToggleKind) : Store × Store :=
  match type_ with
  | .absent => (applyToggle attendanceData classId day month year, offDaysData)
  | .off => (attendanceData, applyToggle offDaysData classId day month year)

/-- Pick the store targeted by a toggle kind. -/
def targetOf (k : ToggleKind) (p : Store × Store) : Store :=
  match k with
  | .absent => p.1
  | .off => p.2

/-- The per-month counters of `getStats` / `getMonthlyStats`. -/
structure Stats where
  totalConducted : Nat
  totalAbsent : Nat
  totalOff : Nat
deriving DecidableEq, Repr

/-- One iteration of the day loop shared by `getStats` and
`getMonthlyStats`: skip weekends; off days bump `totalOff`; otherwise
bump `totalConducted`, and `totalAbsent` as well when the day is in the
absent list. -/
def dayStep (absents offs : List Nat) (year month : Nat) (s : Stats)
    (d : Nat) : Stats :=
  if isWeekendDay year month d then s
  else if offs.contains d then { s with totalOff := s.totalOff + 1 }
  else { s with
          totalConducted := s.totalConducted + 1,
          totalAbsent := s.totalAbsent + (if absents.contains d then 1 else 0) }

/-- Componentwise addition of stats records (used to decompose the
accumulating loops of `getStats`). -/
def addStats (a b : Stats) : Stats :=
  ⟨a.totalConducted + b.totalConducted, a.totalAbsent + b.totalAbsent,
    a.totalOff + b.totalOff⟩

/-- The day loop bounds `for (let d = startDay; d <= endDay; d++)`. -/
def dayRange (startDay endDay : Nat) : List Nat :=
  List.range' startDay (endDay + 1 - startDay)

/-- The loop bound `startDay`: the semester start's day-of-month in the semester's
first month, else 1 (identical in `getStats` and `getMonthlyStats`). -/
def statsStartDay (semStart : Date) (year month : Nat) : Nat :=
  if year = semStart.year ∧ month = semStart.month then semStart.day else 1

/-- The loop bound `endDay`: days in the month, clamped by the semester end's day in
the semester's last month, then by `last.getDate()` in `last`'s month
(`last` is `endDate` in `getStats` and `today` in `getMonthlyStats`). -/
def statsEndDay (semEnd last : Date) (year month : Nat) : Nat :=
  let e1 := daysInMonth year month
  let e2 := if year = semEnd.year ∧ month = semEnd.month
            then min e1 semEnd.day else e1
  if year = last.year ∧ month = last.month then min e2 last.day else e2

/-- The function `getMonthlyStats(classId, month, year)` (the stores, the semester
window and today's date are the globals it reads). -/
def getMonthlyStats (attendanceData offDaysData : Store) (classId : String)
    (month year : Nat) (semStart semEnd today : Date) : Stats :=
  let key := monthKey year month
  let absents := getDays attendanceData classId key
  let offs := getDays offDaysData classId key
  (dayRange (statsStartDay semStart year month)
      (statsEndDay semEnd today year month)).foldl
    (dayStep absents offs year month) ⟨0, 0, 0⟩

/-- The value `endDate = (today < semesterEnd) ? today : semesterEnd`. -/
def endStatsDate (semEnd today : Date) : Date :=
  if Date.ltb today semEnd then today else semEnd

/-- The months visited by `getStats`'s `while (cur <= endDate)` loop,
as linear month indices `year * 12 + month`: every month from the
semester start's month through `endDate`'s month (`cur` is the first of
the month, and a real `endDate` has `day ≥ 1`, so the loop stops right
after `endDate`'s month). -/
def monthRange (semStart endDate : Date) : List Nat :=
  List.range' (semStart.year * 12 + semStart.month)
    (endDate.year * 12 + endDate.month + 1
      - (semStart.year * 12 + semStart.month))

/-- The body of `getStats`'s month loop at month index `idx`,
threading the accumulated totals through the inner day loop. -/
def monthBody (attendanceData offDaysData : Store) (classId : String)
    (semStart semEnd endDate : Date) (acc : Stats) (idx : Nat) : Stats :=
  let year := idx / 12
  let month := idx % 12
  let key := monthKey year month
  let absents := getDays attendanceData classId key
  let offs := getDays offDaysData classId key
  (dayRange (statsStartDay semStart year month)
      (statsEndDay semEnd endDate year month)).foldl
    (dayStep absents offs year month) acc

/-- The record returned by `getStats`. -/
structure CumStats where
  totalConducted : Nat
  totalAbsent : Nat
  totalOff : Nat
  totalPossibleLeaves : Nat
  possibleLeaves : Nat
deriving DecidableEq, Repr

/-- The function `getStats(classId)`: accumulate the day loop over every month from
the semester start through `min(today, semesterEnd)`, then derive the
leave budget (`Math.floor(c / 4)` and the clamp at 0). -/
def getStats (attendanceData offDaysData : Store) (classId : String)
    (semStart semEnd today : Date) : CumStats :=
  let endDate := endStatsDate semEnd today
  let t := (monthRange semStart endDate).foldl
    (monthBody attendanceData offDaysData classId semStart semEnd endDate)
    ⟨0, 0, 0⟩
  let tpl := t.totalConducted / 4
  { totalConducted := t.totalConducted
    totalAbsent := t.totalAbsent
    totalOff := t.totalOff
    totalPossibleLeaves := tpl
    possibleLeaves := tpl - t.totalAbsent }

/-- Modelled from the spec: exact rounding of a rational for the
attendance percentage, `round(q) = ⌊q + 1/2⌋`; this is also what
`Math.round` computes on the exact value of its (float) argument,
ties away from `-∞`. -/
def roundQ (q : ℚ) : ℤ := ⌊q + 1 / 2⌋

/-- Round to the nearest integer, ties to even — the rounding of IEEE
754 round-to-nearest mode applied to a scaled significand. -/
def roundHalfEven (q : ℚ) : ℤ :=
  if q - ⌊q⌋ < 1 / 2 then ⌊q⌋
  else if 1 / 2 < q - ⌊q⌋ then ⌊q⌋ + 1
  else if 2 ∣ ⌊q⌋ then ⌊q⌋ else ⌊q⌋ + 1

/-- Fuelled binary search for `⌊log₂ q⌋` of a rational `q ≥ 1`:
the number of halvings until the value drops below 2. -/
def flog2Up : Nat → ℚ → Nat
  | 0, _ => 0
  | fuel + 1, q => if q < 2 then 0 else flog2Up fuel (q / 2) + 1

/-- Fuelled binary search for `-⌊log₂ q⌋` of a rational `0 < q < 1`:
the number of doublings needed to reach 1. -/
def flog2Down : Nat → ℚ → Nat
  | 0, _ => 0
  | fuel + 1, q => if 1 ≤ q then 0 else flog2Down fuel (q * 2) + 1

/-- The binary exponent `⌊log₂ q⌋` of a positive rational (fuel 1200
covers the whole finite binary64 range). -/
def floorLog2 (q : ℚ) : ℤ :=
  if 1 ≤ q then (flog2Up 1200 q : ℤ) else -(flog2Down 1200 q : ℤ)

/-- Round a positive rational to the nearest IEEE 754 binary64 value
(round-to-nearest, ties-to-even): 53 significant bits at the value's
binary exponent.  Zero maps to zero; this models every arithmetic
result the percentage pipeline produces (all lie well inside the
normal binary64 range). -/
def fl64 (q : ℚ) : ℚ :=
  if q ≤ 0 then 0
  else (roundHalfEven (q / (2 : ℚ) ^ (floorLog2 q - 52)) : ℚ)
    * (2 : ℚ) ^ (floorLog2 q - 52)

/-- The float64 evaluation of `((c - a) / c) * 100` performed by the
source: the subtraction `c - a` is exact (small integers), the
division and the product by 100 each round to nearest binary64. -/
def percentValue (c a : Nat) : ℚ :=
  fl64 (fl64 (((c : ℚ) - a) / c) * 100)

/-- The percentage shown by `updateCardStats`:
`c === 0 ? 0 : Math.round(((c - a) / c) * 100)` on the cumulative
stats, with the ratio computed in binary64 and `Math.round` taking
the closest integer (ties toward `+∞`) of the resulting float. -/
def cardPercent (attendanceData offDaysData : Store) (classId : String)
    (semStart semEnd today : Date) : ℤ :=
  let stats := getStats attendanceData offDaysData classId semStart semEnd today
  if stats.totalConducted = 0 then 0
  else roundQ (percentValue stats.totalConducted stats.totalAbsent)

/-- The monthly percentage computed in `renderCalendar` from
`getMonthlyStats`, with the same zero guard and the same binary64
pipeline. -/
def monthlyPercent (attendanceData offDaysData : Store) (classId : String)
    (month year : Nat) (semStart semEnd today : Date) : ℤ :=
  let s := getMonthlyStats attendanceData offDaysData classId month year
    semStart semEnd today
  if s.totalConducted = 0 then 0
  else roundQ (percentValue s.totalConducted s.totalAbsent)

/-- The function `isMonthAllowed(year, month)`:
`!(monthEnd < semesterStart || monthStart > semesterEnd)`. -/
def isMonthAllowed (semStart semEnd : Date) (year month : Nat) : Bool :=
  let dim := daysInMonth year month
  !(Date.ltb ⟨year, month, dim⟩ semStart || Date.ltb semEnd ⟨year, month, 1⟩)

/-- The derived per-cell state of the calendar (never stored). -/
inductive ClassDayState where
  | OutsideSemester
  | Future
  | Weekend
  | Holiday
  | Absent
  | Present
deriving DecidableEq, Repr

/-- The day-classification cascade of `renderCalendar`:
`inSemester = date >= semesterStart && date <= semesterEnd`,
`isFuture = date > today`, then weekend / off list / absent list /
present, first match wins. -/
def renderDayState (attendanceData offDaysData : Store) (classId : String)
    (year month day : Nat) (semStart semEnd today : Date) : ClassDayState :=
  let date : Date := ⟨year, month, day⟩
  let inSemester := Date.leb semStart date && Date.leb date semEnd
  let isFuture := Date.ltb today date
  if !inSemester then .OutsideSemester
  else if isFuture then .Future
  else if isWeekendDay year month day then .Weekend
  else if (getDays offDaysData classId (monthKey year month)).contains day then
    .Holiday
  else if (getDays attendanceData classId (monthKey year month)).contains day then
    .Absent
  else .Present

/-- Modelled from the spec: the six-step first-match decision list of
`classifyDay` as the specification words it
(1. `date < start OR date > end`, 2. `date > today`,
3. `dayOfWeek ∈ {Saturday, Sunday}`, 4. off set, 5. absent set,
6. present). -/
def classifyDaySpec (store offStore : Store) (classId : String)
    (year month day : Nat) (semStart semEnd today : Date) : ClassDayState :=
  let date : Date := ⟨year, month, day⟩
  if Date.ltb date semStart || Date.ltb semEnd date then .OutsideSemester
  else if Date.ltb today date then .Future
  else if getDay year month day == 6 || getDay year month day == 0 then .Weekend
  else if (getDays offStore classId (monthKey year month)).contains day then
    .Holiday
  else if (getDays store classId (monthKey year month)).contains day then
    .Absent
  else .Present

/-- The days a month's loop counts into `totalConducted`: loop days
that are neither weekends nor in the off list. -/
def monthlyCountedDays (offs : List Nat) (year month startDay endDay : Nat) :
    List Nat :=
  (dayRange startDay endDay).filter
    (fun d => !isWeekendDay year month d && !offs.contains d)

/-- All dates `getStats` counts into `totalConducted`, month by
month. -/
def cumCountedDates (offDaysData : Store) (classId : String)
    (semStart semEnd today : Date) : List Date :=
  let endDate := endStatsDate semEnd today
  (monthRange semStart endDate).flatMap fun idx =>
    (monthlyCountedDays
        (getDays offDaysData classId (monthKey (idx / 12) (idx % 12)))
        (idx / 12) (idx % 12)
        (statsStartDay semStart (idx / 12) (idx % 12))
        (statsEndDay semEnd endDate (idx / 12) (idx % 12))).map
      fun d => ⟨idx / 12, idx % 12, d⟩

/-! ## Basic lemmas about dates and Boolean comparison -/

theorem Date.ltb_iff (a b : Date) :
    Date.ltb a b = true ↔
      a.year < b.year ∨ (a.year = b.year ∧
        (a.month < b.month ∨ (a.month = b.month ∧ a.day < b.day))) := by
  simp [Date.ltb]

theorem Date.ltb_false_iff (a b : Date) :
    Date.ltb a b = false ↔
      ¬(a.year < b.year ∨ (a.year = b.year ∧
        (a.month < b.month ∨ (a.month = b.month ∧ a.day < b.day)))) := by
  simp [Date.ltb]

/-! ## Association-list lemmas -/

theorem lookup_setEntry_self {α : Type} (l : List (String × α)) (k : String)
    (v : α) : (setEntry l k v).lookup k = some v := by
  induction l with
  | nil => simp [setEntry, List.lookup]
  | cons p rest ih =>
      obtain ⟨k', v'⟩ := p
      by_cases h : k' = k
      · subst h
        simp [setEntry, List.lookup]
      · have hb : (k' == k) = false := beq_eq_false_iff_ne.mpr h
        have hb2 : (k == k') = false := beq_eq_false_iff_ne.mpr (Ne.symm h)
        simp [setEntry, hb, List.lookup, hb2, ih]

theorem lookup_setEntry_ne {α : Type} (l : List (String × α)) (k k2 : String)
    (v : α) (h : k2 ≠ k) : (setEntry l k v).lookup k2 = l.lookup k2 := by
  have hb : (k2 == k) = false := beq_eq_false_iff_ne.mpr h
  induction l with
  | nil => simp [setEntry, List.lookup, hb]
  | cons p rest ih =>
      obtain ⟨k', v'⟩ := p
      by_cases hk : k' = k
      · subst hk
        simp [setEntry, List.lookup, hb]
      · have hkb : (k' == k) = false := beq_eq_false_iff_ne.mpr hk
        by_cases hk2 : k2 = k'
        · subst hk2
          simp [setEntry, hkb, List.lookup]
        · have hk2b : (k2 == k') = false := beq_eq_false_iff_ne.mpr hk2
          simp [setEntry, hkb, List.lookup, hk2b, ih]

theorem getDays_applyToggle_self (s : Store) (classId : String)
    (day month year : Nat) :
    getDays (applyToggle s classId day month year) classId (monthKey year month)
      = toggleDays (getDays s classId (monthKey year month)) day := by
  unfold applyToggle getDays
  rw [lookup_setEntry_self]
  simp [lookup_setEntry_self]

theorem getDays_applyToggle_ne (s : Store) (classId : String)
    (day month year : Nat) (cid key : String)
    (h : cid ≠ classId ∨ key ≠ monthKey year month) :
    getDays (applyToggle s classId day month year) cid key
      = getDays s cid key := by
  unfold applyToggle getDays
  rcases h with h | h
  · rw [lookup_setEntry_ne _ _ _ _ h]
  · by_cases hc : cid = classId
    · subst hc
      rw [lookup_setEntry_self]
      simp [lookup_setEntry_ne _ _ _ _ h]
    · rw [lookup_setEntry_ne _ _ _ _ hc]

/-! ## Sorting and toggling lemmas -/

theorem count_sortInsert (a d : Nat) (l : List Nat) :
    (sortInsert d l).count a = (d :: l).count a := by
  induction l with
  | nil => rfl
  | cons x xs ih =>
      by_cases h : d ≤ x
      · simp [sortInsert, h]
      · simp only [sortInsert, h, if_false, List.count_cons, ih]
        omega

theorem count_sortAsc (a : Nat) (l : List Nat) :
    (sortAsc l).count a = l.count a := by
  induction l with
  | nil => rfl
  | cons x xs ih =>
      simp only [sortAsc, count_sortInsert, List.count_cons, ih]

theorem mem_sortAsc (a : Nat) (l : List Nat) : a ∈ sortAsc l ↔ a ∈ l := by
  rw [← List.count_pos_iff, ← List.count_pos_iff, count_sortAsc]

theorem contains_iff (l : List Nat) (a : Nat) : l.contains a = true ↔ a ∈ l := by
  simp [List.contains, List.elem_iff]

/-- Toggling the same day twice restores its membership, provided the
day list contains no duplicates. -/
theorem mem_toggleDays_twice (days : List Nat) (day : Nat) (h : days.Nodup) :
    (day ∈ toggleDays (toggleDays days day) day ↔ day ∈ days) := by
  unfold toggleDays
  by_cases hm : day ∈ days
  · have hc : days.contains day = true := (contains_iff _ _).mpr hm
    have herase : day ∉ days.erase day := by
      intro hmem
      exact ((h.mem_erase_iff.mp hmem).1 rfl).elim
    have hc2 : (days.erase day).contains day = false := by
      rcases hb : (days.erase day).contains day with _ | _
      · rfl
      · exact (herase ((contains_iff _ _).mp hb)).elim
    simp only [hc, if_true, hc2, Bool.false_eq_true, if_false]
    simp [mem_sortAsc, hm]
  · have hc : days.contains day = false := by
      rcases hb : days.contains day with _ | _
      · rfl
      · exact (hm ((contains_iff _ _).mp hb)).elim
    have hcount : (sortAsc (days ++ [day])).count day = 1 := by
      rw [count_sortAsc, List.count_append]
      have : days.count day = 0 := by
        simp [List.count_eq_zero, hm]
      simp [this]
    have hmem : day ∈ sortAsc (days ++ [day]) := by
      rw [← List.count_pos_iff, hcount]
      omega
    have hc1 : (sortAsc (days ++ [day])).contains day = true :=
      (contains_iff _ _).mpr hmem
    simp only [hc, Bool.false_eq_true, if_false, hc1, if_true]
    have : ((sortAsc (days ++ [day])).erase day).count day = 0 := by
      rw [List.count_erase_self, hcount]
    have hnot : day ∉ (sortAsc (days ++ [day])).erase day := by
      rw [← List.count_pos_iff, this]
      simp
    simp [hnot, hm]

/-! ## Claim C1: the classification cascade matches the six-step
specification -/

/-- C1: for every classId, date, store, offStore, semester window and
today, the day classification implemented by `renderCalendar` follows
the specification's six-step first-match decision order
(OutsideSemester, Future, Weekend, Holiday, Absent, Present). -/
theorem classifyDay_spec_correct (store offStore : Store) (classId : String)
    (year month day : Nat) (semStart semEnd today : Date) :
    renderDayState store offStore classId year month day semStart semEnd today
      = classifyDaySpec store offStore classId year month day semStart semEnd
          today := by
  unfold renderDayState classifyDaySpec isWeekendDay Date.leb
  simp only [Bool.not_and, Bool.not_not]
  rw [Bool.or_comm (getDay year month day == 0) (getDay year month day == 6)]

/-! ## Claim C3: toggling twice restores membership -/

/-- C3 counterexample: on a day list with a duplicate entry the claim
fails as stated — day 5 is in the absent set of `"cs301"` for August
2025, but after two identical `toggleDayStatus` calls it no longer
is. -/
theorem toggleDay_double_dup_counterexample :
    (5 ∈ getDays [("cs301", [("2025-08", [5, 5])])] "cs301"
        (monthKey 2025 7)) ∧
    ¬(5 ∈ getDays (targetOf .absent
        (toggleDayStatus
          (toggleDayStatus [("cs301", [("2025-08", [5, 5])])] [] "cs301"
            5 7 2025 .absent).1
          (toggleDayStatus [("cs301", [("2025-08", [5, 5])])] [] "cs301"
            5 7 2025 .absent).2
          "cs301" 5 7 2025 .absent))
        "cs301" (monthKey 2025 7)) := by decide

/-- C3 amended: for every pair of stores, classId, day, month, year and
kind, if the targeted day list is duplicate-free (as every list the
system ever builds is), applying `toggleDayStatus` twice with identical
arguments restores the original membership of that day. -/
theorem toggleDay_double_mem_of_nodup (store offStore : Store)
    (classId : String) (day month year : Nat) (kind : ToggleKind)
    (h : (getDays (targetOf kind (store, offStore)) classId
        (monthKey year month)).Nodup) :
    (day ∈ getDays (targetOf kind
        (toggleDayStatus
          (toggleDayStatus store offStore classId day month year kind).1
          (toggleDayStatus store offStore classId day month year kind).2
          classId day month year kind))
        classId (monthKey year month)
      ↔ day ∈ getDays (targetOf kind (store, offStore)) classId
          (monthKey year month)) := by
  cases kind
  · simp only [toggleDayStatus, targetOf] at h ⊢
    rw [getDays_applyToggle_self, getDays_applyToggle_self]
    exact mem_toggleDays_twice _ _ h
  · simp only [toggleDayStatus, targetOf] at h ⊢
    rw [getDays_applyToggle_self, getDays_applyToggle_self]
    exact mem_toggleDays_twice _ _ h

/-- C3 witness: the amended theorem applied at a concrete store. -/
theorem toggleDay_double_mem_of_nodup_witness :
    (getDays (targetOf .absent
        (([("cs301", [("2025-08", [28])])] : Store), ([] : Store)))
        "cs301" (monthKey 2025 7)).Nodup ∧
    (28 ∈ getDays (targetOf .absent
        (toggleDayStatus
          (toggleDayStatus [("cs301", [("2025-08", [28])])] [] "cs301"
            28 7 2025 .absent).1
          (toggleDayStatus [("cs301", [("2025-08", [28])])] [] "cs301"
            28 7 2025 .absent).2
          "cs301" 28 7 2025 .absent))
        "cs301" (monthKey 2025 7)
      ↔ 28 ∈ getDays (targetOf .absent
          (([("cs301", [("2025-08", [28])])] : Store), ([] : Store)))
          "cs301" (monthKey 2025 7)) :=
  ⟨by decide,
    toggleDay_double_mem_of_nodup [("cs301", [("2025-08", [28])])] []
      "cs301" 28 7 2025 .absent (by decide)⟩

/-! ## Claim C5: monthly stats of a month entirely after today -/

/-- C5: evaluating `getMonthlyStats` for September 2025 with
"today" = August 15, 2025 and the repository's semester window. The
specification says this yields conducted = absent = off = 0 because
`endDay` clamps below `startDay`; the code's `endDay` clamp only fires
when the month equals today's calendar month, so every non-weekend day
of the future month is counted as conducted. -/
theorem monthlyStats_future_month_value :
    getMonthlyStats [] [] "cs301" 8 2025 semesterStart semesterEnd
        ⟨2025, 7, 15⟩ = ⟨22, 0, 0⟩ := by decide

/-! ## Claim C6: absent/off mutual exclusion -/

/-- C6 counterexample: starting from empty stores (which trivially
satisfy mutual exclusion), toggling day 5 of August 2025 as absent and
then as off leaves the day in both sets simultaneously. -/
theorem toggle_both_sets_counterexample :
    getDays ([] : Store) "cs301" (monthKey 2025 7) = [] ∧
    (5 ∈ getDays (toggleDayStatus
        (toggleDayStatus [] [] "cs301" 5 7 2025 .absent).1
        (toggleDayStatus [] [] "cs301" 5 7 2025 .absent).2
        "cs301" 5 7 2025 .off).1 "cs301" (monthKey 2025 7)) ∧
    (5 ∈ getDays (toggleDayStatus
        (toggleDayStatus [] [] "cs301" 5 7 2025 .absent).1
        (toggleDayStatus [] [] "cs301" 5 7 2025 .absent).2
        "cs301" 5 7 2025 .off).2 "cs301" (monthKey 2025 7)) := by decide

/-- C6 amended: dual membership is possible (the mutation layer does
not enforce exclusion), and the classifier resolves it — a day listed
in both the off set and the absent set, lying in the semester window,
not in the future and not on a weekend, classifies as Holiday. -/
theorem both_sets_classify_holiday (store offStore : Store)
    (classId : String) (year month day : Nat) (semStart semEnd today : Date)
    (hoff : (getDays offStore classId (monthKey year month)).contains day
      = true)
    (habs : (getDays store classId (monthKey year month)).contains day
      = true)
    (hin1 : Date.leb semStart ⟨year, month, day⟩ = true)
    (hin2 : Date.leb ⟨year, month, day⟩ semEnd = true)
    (hfut : Date.ltb today ⟨year, month, day⟩ = false)
    (hwk : isWeekendDay year month day = false) :
    renderDayState store offStore classId year month day semStart semEnd today
      = .Holiday := by
  have hoffm : day ∈ getDays offStore classId (monthKey year month) :=
    (contains_iff _ _).mp hoff
  unfold renderDayState
  simp [hin1, hin2, hfut, hwk, hoffm]

/-- C6 witness: the amended theorem applied at a store that lists
August 5, 2025 in both sets. -/
theorem both_sets_classify_holiday_witness :
    renderDayState [("cs301", [("2025-08", [5])])]
        [("cs301", [("2025-08", [5])])] "cs301" 2025 7 5
        semesterStart semesterEnd ⟨2025, 7, 15⟩ = .Holiday :=
  both_sets_classify_holiday _ _ "cs301" 2025 7 5 _ _ _
    (by decide) (by decide) (by decide) (by decide) (by decide) (by decide)

/-! ## Claim C7: toggling one kind never touches the other store, and
touches only one entry of its own store -/

/-- C7: `toggleDayStatus` with kind absent returns the off store
unchanged and vice versa, and in the mutated store every entry other
than (classId, monthKey year month) reads back unchanged. -/
theorem toggleDay_frame (store offStore : Store) (classId : String)
    (day month year : Nat) :
    (toggleDayStatus store offStore classId day month year .absent).2
      = offStore ∧
    (toggleDayStatus store offStore classId day month year .off).1
      = store ∧
    (∀ cid key, cid ≠ classId ∨ key ≠ monthKey year month →
      getDays (toggleDayStatus store offStore classId day month year
          .absent).1 cid key = getDays store cid key) ∧
    (∀ cid key, cid ≠ classId ∨ key ≠ monthKey year month →
      getDays (toggleDayStatus store offStore classId day month year
          .off).2 cid key = getDays offStore cid key) := by
  refine ⟨rfl, rfl, ?_, ?_⟩
  · intro cid key h
    exact getDays_applyToggle_ne store classId day month year cid key h
  · intro cid key h
    exact getDays_applyToggle_ne offStore classId day month year cid key h

/-- C7 witness: the frame theorem applied at concrete stores, reading
back an untouched class entry. -/
theorem toggleDay_frame_witness :
    getDays (toggleDayStatus [("cs301", [("2025-08", [5])])] [] "cs301"
        6 7 2025 .absent).1 "cs302" "2025-08"
      = getDays [("cs301", [("2025-08", [5])])] "cs302" "2025-08" :=
  (toggleDay_frame [("cs301", [("2025-08", [5])])] [] "cs301" 6 7 2025).2.2.1
    "cs302" "2025-08" (Or.inl (by decide))

/-! ## Decomposition lemmas for the statistics loops -/

theorem addStats_zero (s : Stats) : addStats s ⟨0, 0, 0⟩ = s := by
  simp [addStats]

theorem addStats_assoc (a b c : Stats) :
    addStats (addStats a b) c = addStats a (addStats b c) := by
  simp [addStats, Nat.add_assoc]

theorem dayStep_decomp (absents offs : List Nat) (year month : Nat)
    (s : Stats) (d : Nat) :
    dayStep absents offs year month s d
      = addStats s (dayStep absents offs year month ⟨0, 0, 0⟩ d) := by
  unfold dayStep addStats
  by_cases h1 : isWeekendDay year month d
  · simp [h1]
  · by_cases h2 : d ∈ offs
    · simp [h1, h2]
    · by_cases h3 : d ∈ absents <;> simp [h1, h2, h3]

theorem foldl_dayStep_decomp (absents offs : List Nat) (year month : Nat) :
    ∀ (l : List Nat) (s : Stats),
      l.foldl (dayStep absents offs year month) s
        = addStats s (l.foldl (dayStep absents offs year month) ⟨0, 0, 0⟩) := by
  intro l
  induction l with
  | nil => intro s; simp [addStats_zero]
  | cons d ds ih =>
      intro s
      simp only [List.foldl_cons]
      rw [ih (dayStep absents offs year month s d),
        ih (dayStep absents offs year month ⟨0, 0, 0⟩ d),
        dayStep_decomp, addStats_assoc]

theorem foldl_dayStep_conducted (absents offs : List Nat) (year month : Nat) :
    ∀ (l : List Nat) (s : Stats),
      (l.foldl (dayStep absents offs year month) s).totalConducted
        = s.totalConducted + (l.filter (fun d =>
            !isWeekendDay year month d && !offs.contains d)).length := by
  intro l
  induction l with
  | nil => intro s; simp
  | cons d ds ih =>
      intro s
      by_cases h1 : isWeekendDay year month d
      · simp [List.foldl_cons, dayStep, h1, List.filter_cons, ih]
      · by_cases h2 : d ∈ offs
        · simp [List.foldl_cons, dayStep, h1, h2, List.filter_cons, ih]
        · simp [List.foldl_cons, dayStep, h1, h2, List.filter_cons, ih]
          omega

theorem foldl_dayStep_off (absents offs : List Nat) (year month : Nat) :
    ∀ (l : List Nat) (s : Stats),
      (l.foldl (dayStep absents offs year month) s).totalOff
        = s.totalOff + (l.filter (fun d =>
            !isWeekendDay year month d && offs.contains d)).length := by
  intro l
  induction l with
  | nil => intro s; simp
  | cons d ds ih =>
      intro s
      by_cases h1 : isWeekendDay year month d
      · simp [List.foldl_cons, dayStep, h1, List.filter_cons, ih]
      · by_cases h2 : d ∈ offs
        · simp [List.foldl_cons, dayStep, h1, h2, List.filter_cons, ih]
          omega
        · simp [List.foldl_cons, dayStep, h1, h2, List.filter_cons, ih]

theorem foldl_dayStep_absent (absents offs : List Nat) (year month : Nat) :
    ∀ (l : List Nat) (s : Stats),
      (l.foldl (dayStep absents offs year month) s).totalAbsent
        = s.totalAbsent + (l.filter (fun d => absents.contains d
            && (!isWeekendDay year month d && !offs.contains d))).length := by
  intro l
  induction l with
  | nil => intro s; simp
  | cons d ds ih =>
      intro s
      by_cases h1 : isWeekendDay year month d
      · simp [List.foldl_cons, dayStep, h1, List.filter_cons, ih]
      · by_cases h2 : d ∈ offs
        · simp [List.foldl_cons, dayStep, h1, h2, List.filter_cons, ih]
        · by_cases h3 : d ∈ absents
          · simp [List.foldl_cons, dayStep, h1, h2, h3, List.filter_cons, ih]
            omega
          · simp [List.foldl_cons, dayStep, h1, h2, h3, List.filter_cons, ih]

theorem monthBody_decomp (attendanceData offDaysData : Store)
    (classId : String) (semStart semEnd endDate : Date) (acc : Stats)
    (idx : Nat) :
    monthBody attendanceData offDaysData classId semStart semEnd endDate acc
        idx
      = addStats acc (monthBody attendanceData offDaysData classId semStart
          semEnd endDate ⟨0, 0, 0⟩ idx) := by
  unfold monthBody
  exact foldl_dayStep_decomp _ _ _ _ _ acc

theorem foldl_monthBody_decomp (attendanceData offDaysData : Store)
    (classId : String) (semStart semEnd endDate : Date) :
    ∀ (l : List Nat) (s : Stats),
      l.foldl (monthBody attendanceData offDaysData classId semStart semEnd
          endDate) s
        = addStats s (l.foldl (monthBody attendanceData offDaysData classId
            semStart semEnd endDate) ⟨0, 0, 0⟩) := by
  intro l
  induction l with
  | nil => intro s; simp [addStats_zero]
  | cons idx l ih =>
      intro s
      simp only [List.foldl_cons]
      rw [ih (monthBody attendanceData offDaysData classId semStart semEnd
          endDate s idx),
        ih (monthBody attendanceData offDaysData classId semStart semEnd
          endDate ⟨0, 0, 0⟩ idx),
        monthBody_decomp, addStats_assoc]

theorem foldl_monthBody_sum (attendanceData offDaysData : Store)
    (classId : String) (semStart semEnd endDate : Date) :
    ∀ (l : List Nat),
      l.foldl (monthBody attendanceData offDaysData classId semStart semEnd
          endDate) ⟨0, 0, 0⟩
        = ⟨(l.map (fun idx => (monthBody attendanceData offDaysData classId
              semStart semEnd endDate ⟨0, 0, 0⟩ idx).totalConducted)).sum,
           (l.map (fun idx => (monthBody attendanceData offDaysData classId
              semStart semEnd endDate ⟨0, 0, 0⟩ idx).totalAbsent)).sum,
           (l.map (fun idx => (monthBody attendanceData offDaysData classId
              semStart semEnd endDate ⟨0, 0, 0⟩ idx).totalOff)).sum⟩ := by
  intro l
  induction l with
  | nil => rfl
  | cons idx l ih =>
      simp only [List.foldl_cons, List.map_cons, List.sum_cons]
      rw [foldl_monthBody_decomp _ _ _ _ _ _ l
        (monthBody attendanceData offDaysData classId semStart semEnd endDate
          ⟨0, 0, 0⟩ idx), ih]
      simp [addStats]

/-! ## Month-level lemmas -/

theorem getMonthlyStats_conducted (attendanceData offDaysData : Store)
    (classId : String) (month year : Nat) (semStart semEnd today : Date) :
    (getMonthlyStats attendanceData offDaysData classId month year semStart
        semEnd today).totalConducted
      = (monthlyCountedDays (getDays offDaysData classId (monthKey year month))
          year month (statsStartDay semStart year month)
          (statsEndDay semEnd today year month)).length := by
  simp only [getMonthlyStats, monthlyCountedDays]
  rw [foldl_dayStep_conducted]
  simp

theorem getMonthlyStats_absent_le (attendanceData offDaysData : Store)
    (classId : String) (month year : Nat) (semStart semEnd today : Date) :
    (getMonthlyStats attendanceData offDaysData classId month year semStart
        semEnd today).totalAbsent
      ≤ (getMonthlyStats attendanceData offDaysData classId month year semStart
          semEnd today).totalConducted := by
  simp only [getMonthlyStats]
  rw [foldl_dayStep_conducted, foldl_dayStep_absent]
  simp only [Nat.zero_add]
  rw [← List.filter_filter]
  exact List.length_filter_le _ _

/-- The `endDay` computed by a `getStats` month iteration (clamped by
`endDate = min(today, semesterEnd)`) coincides with the one
`getMonthlyStats` computes (clamped by `today`) on every month the
`getStats` loop visits. -/
theorem statsEndDay_endDate_eq (semEnd today : Date) (year month : Nat)
    (hE : semEnd.month ≤ 11) (hT : today.month ≤ 11) (hm : month ≤ 11)
    (hidx : year * 12 + month
      ≤ (endStatsDate semEnd today).year * 12
        + (endStatsDate semEnd today).month) :
    statsEndDay semEnd (endStatsDate semEnd today) year month
      = statsEndDay semEnd today year month := by
  unfold endStatsDate at hidx ⊢
  by_cases hlt : Date.ltb today semEnd = true
  · rw [if_pos hlt]
  · have hlt' : Date.ltb today semEnd = false := by
      rcases hb : Date.ltb today semEnd with _ | _
      · rfl
      · exact (hlt hb).elim
    simp only [hlt', Bool.false_eq_true, if_false] at hidx ⊢
    have hge := (Date.ltb_false_iff today semEnd).mp hlt'
    simp only [statsEndDay]
    split_ifs with h1 h2 h3 <;> omega

/-- On every month visited by the `getStats` loop, the month body
starting from zeroed counters computes exactly `getMonthlyStats` of
that month. -/
theorem monthBody_zero_eq_monthly (attendanceData offDaysData : Store)
    (classId : String) (semEnd semStart today : Date) (idx : Nat)
    (hE : semEnd.month ≤ 11) (hT : today.month ≤ 11)
    (hidx : idx ≤ (endStatsDate semEnd today).year * 12
      + (endStatsDate semEnd today).month) :
    monthBody attendanceData offDaysData classId semStart semEnd
        (endStatsDate semEnd today) ⟨0, 0, 0⟩ idx
      = getMonthlyStats attendanceData offDaysData classId (idx % 12)
          (idx / 12) semStart semEnd today := by
  simp only [monthBody, getMonthlyStats]
  rw [statsEndDay_endDate_eq semEnd today (idx / 12) (idx % 12) hE hT
    (by omega) (by omega)]

/-! ## Claim C8: the leave-budget formulas -/

/-- C8: for every pair of stores, classId, semester window and today,
`getStats` satisfies `totalPossibleLeaves = ⌊totalConducted / 4⌋` and
`possibleLeaves = max 0 (totalPossibleLeaves - totalAbsent)`; in
particular `possibleLeaves` is never negative. -/
theorem leaves_formula (attendanceData offDaysData : Store)
    (classId : String) (semStart semEnd today : Date) :
    (getStats attendanceData offDaysData classId semStart semEnd
        today).totalPossibleLeaves
      = (getStats attendanceData offDaysData classId semStart semEnd
          today).totalConducted / 4 ∧
    ((getStats attendanceData offDaysData classId semStart semEnd
        today).possibleLeaves : ℤ)
      = max 0 (((getStats attendanceData offDaysData classId semStart semEnd
            today).totalPossibleLeaves : ℤ)
          - ((getStats attendanceData offDaysData classId semStart semEnd
            today).totalAbsent : ℤ)) := by
  constructor
  · rfl
  · simp only [getStats]
    omega

/-! ## Claim C10: unknown classId -/

/-- C10 counterexample: for a classId absent from both stores the
statistics are not empty — with today = Aug 15, 2025 the cumulative
conducted count is 15 (all class days so far), not 0. -/
theorem unknown_class_stats_counterexample :
    (getStats [] [] "unknown" semesterStart semesterEnd
        ⟨2025, 7, 15⟩).totalConducted = 15 ∧
    (getStats [] [] "unknown" semesterStart semesterEnd
        ⟨2025, 7, 15⟩).totalConducted ≠ 0 := by decide

theorem getDays_of_lookup_none (s : Store) (classId : String)
    (h : s.lookup classId = none) (key : String) :
    getDays s classId key = [] := by
  simp [getDays, h]

/-- C10 amended: a classId with no entry in either store yields the
same statistics as empty day-set stores — zero absences and zero off
days, with `totalConducted` still counting every class day; both
computations are total functions, so no exception can arise. -/
theorem unknown_class_stats (attendanceData offDaysData : Store)
    (classId : String) (month year : Nat) (today : Date)
    (hA : attendanceData.lookup classId = none)
    (hO : offDaysData.lookup classId = none) :
    getMonthlyStats attendanceData offDaysData classId month year
        semesterStart semesterEnd today
      = getMonthlyStats [] [] classId month year semesterStart semesterEnd
          today ∧
    (getMonthlyStats attendanceData offDaysData classId month year
        semesterStart semesterEnd today).totalAbsent = 0 ∧
    (getMonthlyStats attendanceData offDaysData classId month year
        semesterStart semesterEnd today).totalOff = 0 ∧
    getStats attendanceData offDaysData classId semesterStart semesterEnd
        today
      = getStats [] [] classId semesterStart semesterEnd today ∧
    (getStats attendanceData offDaysData classId semesterStart semesterEnd
        today).totalAbsent = 0 ∧
    (getStats attendanceData offDaysData classId semesterStart semesterEnd
        today).totalOff = 0 := by
  have hA' : ∀ key, getDays attendanceData classId key = [] :=
    getDays_of_lookup_none _ _ hA
  have hO' : ∀ key, getDays offDaysData classId key = [] :=
    getDays_of_lookup_none _ _ hO
  have hN : ∀ key, getDays ([] : Store) classId key = [] := by
    intro key
    rfl
  have hMeq : getMonthlyStats attendanceData offDaysData classId month year
      semesterStart semesterEnd today
      = getMonthlyStats [] [] classId month year semesterStart semesterEnd
        today := by
    simp only [getMonthlyStats]
    rw [hA', hO', hN]
  have hSeq : getStats attendanceData offDaysData classId semesterStart
      semesterEnd today
      = getStats [] [] classId semesterStart semesterEnd today := by
    have hbody : monthBody attendanceData offDaysData classId semesterStart
        semesterEnd (endStatsDate semesterEnd today)
        = monthBody [] [] classId semesterStart semesterEnd
            (endStatsDate semesterEnd today) := by
      funext acc idx
      simp only [monthBody]
      rw [hA', hO', hN]
    simp only [getStats]
    rw [hbody]
  have hMabs : (getMonthlyStats attendanceData offDaysData classId month year
      semesterStart semesterEnd today).totalAbsent = 0 := by
    simp only [getMonthlyStats]
    rw [foldl_dayStep_absent, hA']
    simp
  have hMoff : (getMonthlyStats attendanceData offDaysData classId month year
      semesterStart semesterEnd today).totalOff = 0 := by
    simp only [getMonthlyStats]
    rw [foldl_dayStep_off, hO']
    simp
  have hSabs : (getStats attendanceData offDaysData classId semesterStart
      semesterEnd today).totalAbsent = 0 := by
    simp only [getStats, foldl_monthBody_sum]
    apply List.sum_eq_zero
    intro x hx
    rw [List.mem_map] at hx
    obtain ⟨idx, _, hidx⟩ := hx
    rw [← hidx]
    simp only [monthBody]
    rw [foldl_dayStep_absent, hA']
    simp
  have hSoff : (getStats attendanceData offDaysData classId semesterStart
      semesterEnd today).totalOff = 0 := by
    simp only [getStats, foldl_monthBody_sum]
    apply List.sum_eq_zero
    intro x hx
    rw [List.mem_map] at hx
    obtain ⟨idx, _, hidx⟩ := hx
    rw [← hidx]
    simp only [monthBody]
    rw [foldl_dayStep_off, hO']
    simp
  exact ⟨hMeq, hMabs, hMoff, hSeq, hSabs, hSoff⟩

/-- C10 witness: the amended theorem applied to stores holding only
other classIds. -/
theorem unknown_class_stats_witness :
    ([("cs301", [("2025-08", [5])])] : Store).lookup "unknown" = none ∧
    ((getStats [("cs301", [("2025-08", [5])])] [("cs301", [("2025-08", [6])])]
        "unknown" semesterStart semesterEnd ⟨2025, 7, 15⟩).totalAbsent = 0 ∧
      (getStats [("cs301", [("2025-08", [5])])]
        [("cs301", [("2025-08", [6])])] "unknown" semesterStart semesterEnd
        ⟨2025, 7, 15⟩).totalOff = 0) :=
  ⟨by decide,
    (unknown_class_stats [("cs301", [("2025-08", [5])])]
      [("cs301", [("2025-08", [6])])] "unknown" 7 2025 ⟨2025, 7, 15⟩
      (by decide) (by decide)).2.2.2.2⟩

/-! ## Claim C2: cumulative statistics refine the monthly statistics -/

/-- C2: for every pair of stores, classId and today (with a valid
month number), `getStats`'s cumulative totals equal the sums of the
`getMonthlyStats` totals over every calendar month from the semester
start month through the month of `min(today, semesterEnd)`,
inclusive. -/
theorem getStats_eq_sum_monthly (attendanceData offDaysData : Store)
    (classId : String) (today : Date) (hT : today.month ≤ 11) :
    (getStats attendanceData offDaysData classId semesterStart semesterEnd
        today).totalConducted
      = ((monthRange semesterStart (endStatsDate semesterEnd today)).map
          (fun idx => (getMonthlyStats attendanceData offDaysData classId
            (idx % 12) (idx / 12) semesterStart semesterEnd
            today).totalConducted)).sum ∧
    (getStats attendanceData offDaysData classId semesterStart semesterEnd
        today).totalAbsent
      = ((monthRange semesterStart (endStatsDate semesterEnd today)).map
          (fun idx => (getMonthlyStats attendanceData offDaysData classId
            (idx % 12) (idx / 12) semesterStart semesterEnd
            today).totalAbsent)).sum ∧
    (getStats attendanceData offDaysData classId semesterStart semesterEnd
        today).totalOff
      = ((monthRange semesterStart (endStatsDate semesterEnd today)).map
          (fun idx => (getMonthlyStats attendanceData offDaysData classId
            (idx % 12) (idx / 12) semesterStart semesterEnd
            today).totalOff)).sum := by
  refine ⟨?_, ?_, ?_⟩ <;>
  · simp only [getStats, foldl_monthBody_sum]
    refine congrArg List.sum (List.map_congr_left ?_)
    intro idx hidx
    have hmem := List.mem_range'_1.mp hidx
    rw [monthBody_zero_eq_monthly attendanceData offDaysData classId
      semesterEnd semesterStart today idx (by decide) hT (by omega)]

/-- C2 witness: the refinement applied at concrete stores and a
concrete today. -/
theorem getStats_eq_sum_monthly_witness :
    (getStats [] [] "cs301" semesterStart semesterEnd
        ⟨2025, 7, 15⟩).totalConducted
      = ((monthRange semesterStart (endStatsDate semesterEnd
            ⟨2025, 7, 15⟩)).map
          (fun idx => (getMonthlyStats [] [] "cs301"
            (idx % 12) (idx / 12) semesterStart semesterEnd
            ⟨2025, 7, 15⟩).totalConducted)).sum ∧
    (getStats [] [] "cs301" semesterStart semesterEnd
        ⟨2025, 7, 15⟩).totalAbsent
      = ((monthRange semesterStart (endStatsDate semesterEnd
            ⟨2025, 7, 15⟩)).map
          (fun idx => (getMonthlyStats [] [] "cs301"
            (idx % 12) (idx / 12) semesterStart semesterEnd
            ⟨2025, 7, 15⟩).totalAbsent)).sum ∧
    (getStats [] [] "cs301" semesterStart semesterEnd
        ⟨2025, 7, 15⟩).totalOff
      = ((monthRange semesterStart (endStatsDate semesterEnd
            ⟨2025, 7, 15⟩)).map
          (fun idx => (getMonthlyStats [] [] "cs301"
            (idx % 12) (idx / 12) semesterStart semesterEnd
            ⟨2025, 7, 15⟩).totalOff)).sum :=
  getStats_eq_sum_monthly [] [] "cs301" ⟨2025, 7, 15⟩ (by decide)

/-! ## Claim C9: the displayed percentage -/

theorem getStats_absent_le (attendanceData offDaysData : Store)
    (classId : String) (semStart semEnd today : Date) :
    (getStats attendanceData offDaysData classId semStart semEnd
        today).totalAbsent
      ≤ (getStats attendanceData offDaysData classId semStart semEnd
          today).totalConducted := by
  simp only [getStats, foldl_monthBody_sum]
  apply List.sum_le_sum
  intro idx hidx
  simp only [monthBody]
  rw [foldl_dayStep_absent, foldl_dayStep_conducted]
  simp only [Nat.zero_add]
  rw [← List.filter_filter]
  exact List.length_filter_le _ _

/-- Nearest-integer rounding is within half a unit. -/
theorem roundHalfEven_abs (q : ℚ) : |(roundHalfEven q : ℚ) - q| ≤ 1 / 2 := by
  have h1 : ((⌊q⌋ : ℚ)) ≤ q := Int.floor_le q
  have h2 : q < ⌊q⌋ + 1 := Int.lt_floor_add_one q
  unfold roundHalfEven
  split_ifs with ha hb hc
  · rw [abs_le]
    constructor <;> push_cast <;> linarith
  · rw [abs_le]
    constructor <;> push_cast <;> linarith
  · rw [abs_le]
    constructor <;> push_cast <;> linarith
  · rw [abs_le]
    constructor <;> push_cast <;> linarith

theorem flog2Up_spec : ∀ (fuel : Nat) (q : ℚ), 1 ≤ q → q < 2 ^ fuel →
    (2 : ℚ) ^ flog2Up fuel q ≤ q ∧ q < 2 ^ (flog2Up fuel q + 1) := by
  intro fuel
  induction fuel with
  | zero =>
      intro q h1 h2
      simp only [pow_zero] at h2
      linarith
  | succ fuel ih =>
      intro q h1 h2
      by_cases hq : q < 2
      · simp only [flog2Up, hq, if_true]
        constructor
        · simpa using h1
        · simpa using hq
      · have h1' : 1 ≤ q / 2 := by
          rw [le_div_iff (by norm_num : (0 : ℚ) < 2)]
          linarith [not_lt.mp hq]
        have h2' : q / 2 < 2 ^ fuel := by
          rw [div_lt_iff (by norm_num : (0 : ℚ) < 2)]
          calc q < 2 ^ (fuel + 1) := h2
          _ = 2 ^ fuel * 2 := by rw [pow_succ]
        obtain ⟨ha, hb⟩ := ih (q / 2) h1' h2'
        have ha2 : (2 : ℚ) ^ flog2Up fuel (q / 2) * 2 ≤ q := by
          have := mul_le_mul_of_nonneg_right ha (by norm_num : (0 : ℚ) ≤ 2)
          rwa [div_mul_cancel₀ q (by norm_num : (2 : ℚ) ≠ 0)] at this
        have hb2 : q < (2 : ℚ) ^ (flog2Up fuel (q / 2) + 1) * 2 := by
          have := mul_lt_mul_of_pos_right hb (by norm_num : (0 : ℚ) < 2)
          rwa [div_mul_cancel₀ q (by norm_num : (2 : ℚ) ≠ 0)] at this
        simp only [flog2Up, hq, if_false]
        constructor
        · rw [pow_succ]
          exact ha2
        · rw [pow_succ]
          exact hb2

theorem flog2Down_spec : ∀ (fuel : Nat) (q : ℚ), 0 < q → q < 1 →
    1 ≤ q * 2 ^ fuel →
    1 ≤ q * 2 ^ flog2Down fuel q ∧ q * 2 ^ flog2Down fuel q < 2 := by
  intro fuel
  induction fuel with
  | zero =>
      intro q h0 h1 h2
      simp only [pow_zero, mul_one] at h2
      linarith
  | succ fuel ih =>
      intro q h0 h1 h2
      have hq1 : ¬(1 ≤ q) := not_le.mpr h1
      by_cases hq2 : 1 ≤ q * 2
      · have hz : flog2Down fuel (q * 2) = 0 := by
          cases fuel with
          | zero => rfl
          | succ fuel => simp [flog2Down, hq2]
        simp only [flog2Down, hq1, if_false, hz, zero_add, pow_one]
        exact ⟨hq2, by linarith⟩
      · have h2' : 1 ≤ (q * 2) * 2 ^ fuel := by
          rw [pow_succ] at h2
          calc (1 : ℚ) ≤ q * (2 ^ fuel * 2) := h2
          _ = (q * 2) * 2 ^ fuel := by ring
        obtain ⟨ha, hb⟩ := ih (q * 2) (by linarith) (not_le.mp hq2) h2'
        simp only [flog2Down, hq1, if_false]
        have heq : q * 2 ^ (flog2Down fuel (q * 2) + 1)
            = (q * 2) * 2 ^ flog2Down fuel (q * 2) := by
          rw [pow_succ]
          ring
        rw [heq]
        exact ⟨ha, hb⟩

theorem floorLog2_spec (q : ℚ) (h0 : 0 < q) (hup : q < 2 ^ (1200 : ℕ))
    (hdown : 1 ≤ q * 2 ^ (1200 : ℕ)) :
    (2 : ℚ) ^ floorLog2 q ≤ q ∧ q < (2 : ℚ) ^ (floorLog2 q + 1) := by
  unfold floorLog2
  by_cases h1 : 1 ≤ q
  · simp only [h1, if_true]
    obtain ⟨ha, hb⟩ := flog2Up_spec 1200 q h1 hup
    constructor
    · rw [zpow_natCast]
      exact ha
    · rw [show ((flog2Up 1200 q : ℤ) + 1) = ((flog2Up 1200 q + 1 : ℕ) : ℤ)
        by push_cast; ring, zpow_natCast]
      exact hb
  · simp only [h1, if_false]
    obtain ⟨ha, hb⟩ := flog2Down_spec 1200 q h0 (not_le.mp h1) hdown
    have hpow : (0 : ℚ) < 2 ^ flog2Down 1200 q := by positivity
    constructor
    · rw [zpow_neg, zpow_natCast, inv_eq_one_div, div_le_iff hpow]
      linarith
    · have hexp : (-(flog2Down 1200 q : ℤ) + 1)
          = 1 - (flog2Down 1200 q : ℤ) := by ring
      rw [hexp, zpow_sub₀ (by norm_num : (2 : ℚ) ≠ 0), zpow_one,
        zpow_natCast, lt_div_iff hpow]
      linarith

theorem floorLog2_eq (q : ℚ) (e : ℤ) (h0 : 0 < q)
    (hup : q < 2 ^ (1200 : ℕ)) (hdown : 1 ≤ q * 2 ^ (1200 : ℕ))
    (hle : (2 : ℚ) ^ e ≤ q) (hlt : q < (2 : ℚ) ^ (e + 1)) :
    floorLog2 q = e := by
  obtain ⟨ha, hb⟩ := floorLog2_spec q h0 hup hdown
  by_contra hne
  rcases lt_or_gt_of_ne hne with hl | hg
  · have hmono : (2 : ℚ) ^ (floorLog2 q + 1) ≤ 2 ^ e := by
      gcongr
      · norm_num
      · omega
    linarith
  · have hmono : (2 : ℚ) ^ (e + 1) ≤ 2 ^ floorLog2 q := by
      gcongr
      · norm_num
      · omega
    linarith

/-- Relative error of one binary64 rounding: half an ulp, hence at
most `q / 2^53` for positive `q` in range. -/
theorem fl64_err (q : ℚ) (h0 : 0 < q) (hup : q < 2 ^ (1200 : ℕ))
    (hdown : 1 ≤ q * 2 ^ (1200 : ℕ)) :
    |fl64 q - q| ≤ q / 2 ^ 53 := by
  obtain ⟨he1, he2⟩ := floorLog2_spec q h0 hup hdown
  have hne : ¬(q ≤ 0) := not_le.mpr h0
  have hulp : (0 : ℚ) < (2 : ℚ) ^ (floorLog2 q - 52) := by positivity
  simp only [fl64, hne, if_false]
  have key := roundHalfEven_abs (q / (2 : ℚ) ^ (floorLog2 q - 52))
  have hsplit : (roundHalfEven (q / (2 : ℚ) ^ (floorLog2 q - 52)) : ℚ)
      * (2 : ℚ) ^ (floorLog2 q - 52) - q
      = ((roundHalfEven (q / (2 : ℚ) ^ (floorLog2 q - 52)) : ℚ)
        - q / (2 : ℚ) ^ (floorLog2 q - 52))
        * (2 : ℚ) ^ (floorLog2 q - 52) := by
    field_simp
  rw [hsplit, abs_mul, abs_of_pos hulp]
  calc |(roundHalfEven (q / (2 : ℚ) ^ (floorLog2 q - 52)) : ℚ)
      - q / (2 : ℚ) ^ (floorLog2 q - 52)|
      * (2 : ℚ) ^ (floorLog2 q - 52)
      ≤ (1 / 2) * (2 : ℚ) ^ (floorLog2 q - 52) :=
        mul_le_mul_of_nonneg_right key (le_of_lt hulp)
  _ ≤ q / 2 ^ 53 := by
        have hE : (2 : ℚ) ^ floorLog2 q
            = (2 : ℚ) ^ (floorLog2 q - 52) * (2 : ℚ) ^ (52 : ℕ) := by
          rw [← zpow_natCast (2 : ℚ) 52,
            ← zpow_add₀ (by norm_num : (2 : ℚ) ≠ 0)]
          congr 1
          omega
        rw [le_div_iff (by positivity : (0 : ℚ) < (2 : ℚ) ^ (53 : ℕ))]
        calc 1 / 2 * (2 : ℚ) ^ (floorLog2 q - 52) * 2 ^ (53 : ℕ)
            = (2 : ℚ) ^ (floorLog2 q - 52) * 2 ^ (52 : ℕ) := by
              rw [show ((2 : ℚ) ^ (53 : ℕ)) = 2 * 2 ^ (52 : ℕ) by norm_num]
              ring
        _ = (2 : ℚ) ^ floorLog2 q := hE.symm
        _ ≤ q := he1

/-- Accumulated error of the two roundings in the percentage pipeline:
below a quarter, for conducted counts that are exactly representable
(`c ≤ 2^53`, true of every counter a JS number can maintain). -/
theorem percentValue_err (c a : Nat) (hac : a < c) (hc53 : c ≤ 2 ^ 53) :
    |percentValue c a - 100 * ((c : ℚ) - a) / c| ≤ 1 / 4 := by
  have hc0 : (0 : ℚ) < c := by
    have : 0 < c := lt_of_le_of_lt (Nat.zero_le a) hac
    exact_mod_cast this
  have hca : (1 : ℚ) ≤ (c : ℚ) - a := by
    have : (a : ℚ) + 1 ≤ c := by exact_mod_cast hac
    linarith
  have hc53' : (c : ℚ) ≤ 2 ^ 53 := by exact_mod_cast hc53
  set r : ℚ := ((c : ℚ) - a) / c with hr
  have hform : 100 * ((c : ℚ) - a) / c = 100 * r := by
    rw [hr]
    ring
  rw [hform]
  have hr_pos : 0 < r := div_pos (by linarith) hc0
  have hr_le_one : r ≤ 1 := by
    rw [hr, div_le_one hc0]
    have : (0 : ℚ) ≤ a := by positivity
    linarith
  have hr_lb : ((2 : ℚ) ^ 53)⁻¹ ≤ r := by
    rw [hr, le_div_iff hc0]
    have h1 : ((2 : ℚ) ^ 53)⁻¹ * c ≤ ((2 : ℚ) ^ 53)⁻¹ * 2 ^ 53 := by
      gcongr
    have h2 : ((2 : ℚ) ^ 53)⁻¹ * (2 : ℚ) ^ 53 = 1 := by norm_num
    linarith
  have hup_r : r < 2 ^ (1200 : ℕ) := by
    calc r ≤ 1 := hr_le_one
    _ < 2 ^ (1200 : ℕ) := by norm_num
  have hdown_r : 1 ≤ r * 2 ^ (1200 : ℕ) := by
    have h1 : (1 : ℚ) ≤ ((2 : ℚ) ^ 53)⁻¹ * 2 ^ (1200 : ℕ) := by norm_num
    have h2 : ((2 : ℚ) ^ 53)⁻¹ * 2 ^ (1200 : ℕ) ≤ r * 2 ^ (1200 : ℕ) := by
      gcongr
    linarith
  have ht_abs := fl64_err r hr_pos hup_r hdown_r
  set t : ℚ := fl64 r with ht
  have ht_err := abs_le.mp ht_abs
  have hr53 : r / 2 ^ 53 ≤ r / 2 := by gcongr <;> norm_num
  have hr2 : r / 2 ^ 53 < r := div_lt_self hr_pos (by norm_num)
  have ht_pos : 0 < t := by
    have := ht_err.1
    linarith
  have ht_ub : t ≤ 2 := by
    have hb : r / 2 ^ 53 ≤ 1 := by
      calc r / 2 ^ 53 ≤ r / 2 := hr53
      _ ≤ 1 / 2 := by gcongr
      _ ≤ 1 := by norm_num
    have := ht_err.2
    linarith
  set w : ℚ := t * 100 with hw
  have hw_pos : 0 < w := by
    rw [hw]
    exact mul_pos ht_pos (by norm_num)
  have hw_ub : w ≤ 200 := by
    rw [hw]
    linarith
  have hw_lb : ((2 : ℚ) ^ 53)⁻¹ ≤ w := by
    have h50 : 50 * r ≤ w := by
      rw [hw]
      have := ht_err.1
      linarith
    have : ((2 : ℚ) ^ 53)⁻¹ ≤ 50 * r := by
      calc ((2 : ℚ) ^ 53)⁻¹ ≤ r := hr_lb
      _ ≤ 50 * r := by linarith
    linarith
  have hup_w : w < 2 ^ (1200 : ℕ) := by
    calc w ≤ 200 := hw_ub
    _ < 2 ^ (1200 : ℕ) := by norm_num
  have hdown_w : 1 ≤ w * 2 ^ (1200 : ℕ) := by
    have h1 : (1 : ℚ) ≤ ((2 : ℚ) ^ 53)⁻¹ * 2 ^ (1200 : ℕ) := by norm_num
    have h2 : ((2 : ℚ) ^ 53)⁻¹ * 2 ^ (1200 : ℕ) ≤ w * 2 ^ (1200 : ℕ) := by
      gcongr
    linarith
  have hu_err := fl64_err w hw_pos hup_w hdown_w
  have hwv : |w - 100 * r| ≤ 100 * (r / 2 ^ 53) := by
    have habs : |w - 100 * r| = |t - r| * 100 := by
      rw [show w - 100 * r = (t - r) * 100 by rw [hw]; ring, abs_mul]
      norm_num
    rw [habs]
    calc |t - r| * 100 ≤ (r / 2 ^ 53) * 100 :=
          mul_le_mul_of_nonneg_right ht_abs (by norm_num)
    _ = 100 * (r / 2 ^ 53) := by ring
  have htri : |percentValue c a - 100 * r| ≤ |fl64 w - w| + |w - 100 * r| := by
    have : percentValue c a = fl64 w := by
      rw [percentValue, hw, ht, hr]
    rw [this]
    exact abs_sub_le (fl64 w) w (100 * r)
  have hbound1 : |fl64 w - w| ≤ 200 / 2 ^ 53 := by
    calc |fl64 w - w| ≤ w / 2 ^ 53 := hu_err
    _ ≤ 200 / 2 ^ 53 := by gcongr
  have hbound2 : |w - 100 * r| ≤ 100 / 2 ^ 53 := by
    calc |w - 100 * r| ≤ 100 * (r / 2 ^ 53) := hwv
    _ ≤ 100 * (1 / 2 ^ 53) := by gcongr
    _ = 100 / 2 ^ 53 := by ring
  calc |percentValue c a - 100 * r|
      ≤ |fl64 w - w| + |w - 100 * r| := htri
  _ ≤ 200 / 2 ^ 53 + 100 / 2 ^ 53 := by linarith
  _ ≤ 1 / 4 := by norm_num

/-- Rounding two rationals at most a quarter apart gives integers at
most one apart. -/
theorem roundQ_close (u v : ℚ) (h : |u - v| ≤ 1 / 4) :
    |roundQ u - roundQ v| ≤ 1 := by
  rw [abs_le] at h
  unfold roundQ
  have h1 : ⌊v + 1 / 4⌋ ≤ ⌊u + 1 / 2⌋ := Int.floor_le_floor (by linarith)
  have h2 : ⌊u + 1 / 2⌋ ≤ ⌊v + 3 / 4⌋ := Int.floor_le_floor (by linarith)
  have h3 : ⌊v + 1 / 2⌋ - 1 ≤ ⌊v + 1 / 4⌋ := by
    rw [Int.le_floor]
    have := Int.floor_le (v + 1 / 2)
    push_cast
    linarith
  have h4 : ⌊v + 3 / 4⌋ ≤ ⌊v + 1 / 2⌋ + 1 := by
    have hlt : v + 3 / 4 < ((⌊v + 1 / 2⌋ + 2 : ℤ) : ℚ) := by
      have := Int.lt_floor_add_one (v + 1 / 2)
      push_cast
      linarith
    have := Int.floor_lt.mpr hlt
    omega
  rw [abs_le]
  omega

/-- The percentage pipeline stays within one unit of the exact
rounding, for any absent count at most the conducted count. -/
theorem percentPipeline_close (c a : Nat) (hac : a ≤ c) (h0 : 0 < c)
    (hc53 : c ≤ 2 ^ 53) :
    |roundQ (percentValue c a) - roundQ (100 * ((c : ℚ) - a) / c)| ≤ 1 := by
  rcases Nat.lt_or_ge a c with hlt | hge
  · exact roundQ_close _ _ (percentValue_err c a hlt hc53)
  · have hac' : a = c := le_antisymm hac hge
    subst hac'
    have hz : (((a : ℚ) - a) / a) = 0 := by simp
    have hz' : 100 * ((a : ℚ) - a) / a = 0 := by
      rw [mul_div_assoc, hz]
      ring
    have h1 : percentValue a a = 0 := by
      rw [percentValue, hz]
      simp [fl64]
    rw [h1, hz']
    simp

/-- C9 counterexample: a reachable state (40 conducted classes, 17
absences, today = Sept 19, 2025) where the program's float64 pipeline
displays 57 while the claim's exact `round(100 * 23 / 40) =
round(57.5)` is 58: the float64 value of `(23 / 40) * 100` is
slightly below 57.5. -/
theorem percent_float_counterexample :
    (getStats [("cs301", [("2025-08",
        [1, 4, 5, 6, 7, 8, 11, 12, 13, 14, 15, 18, 19, 20, 21, 22, 25])])]
      [] "cs301" semesterStart semesterEnd ⟨2025, 8, 19⟩).totalConducted
      = 40 ∧
    (getStats [("cs301", [("2025-08",
        [1, 4, 5, 6, 7, 8, 11, 12, 13, 14, 15, 18, 19, 20, 21, 22, 25])])]
      [] "cs301" semesterStart semesterEnd ⟨2025, 8, 19⟩).totalAbsent
      = 17 ∧
    cardPercent [("cs301", [("2025-08",
        [1, 4, 5, 6, 7, 8, 11, 12, 13, 14, 15, 18, 19, 20, 21, 22, 25])])]
      [] "cs301" semesterStart semesterEnd ⟨2025, 8, 19⟩ = 57 ∧
    roundQ (100 * ((40 : ℚ) - 17) / 40) = 58 := by
  have hs : getStats [("cs301", [("2025-08",
      [1, 4, 5, 6, 7, 8, 11, 12, 13, 14, 15, 18, 19, 20, 21, 22, 25])])]
      [] "cs301" semesterStart semesterEnd ⟨2025, 8, 19⟩
      = ⟨40, 17, 0, 10, 0⟩ := by decide
  have h1 : ((40 : ℚ) - 17) / 40 = 23 / 40 := by norm_num
  have e1 : floorLog2 (23 / 40) = -1 := by
    apply floorLog2_eq
    · norm_num
    · norm_num
    · norm_num
    · norm_num
    · norm_num
  have f1 : fl64 (23 / 40) = 5179139571476070 * (2 : ℚ) ^ (-(53) : ℤ) := by
    simp only [fl64]
    rw [if_neg (by norm_num : ¬((23 / 40 : ℚ) ≤ 0)), e1]
    rw [show ((-1 : ℤ) - 52) = (-(53) : ℤ) by norm_num]
    rw [show (23 / 40 : ℚ) / (2 : ℚ) ^ (-(53) : ℤ)
      = 207165582859042816 / 40 by norm_num]
    have hf : ⌊(207165582859042816 / 40 : ℚ)⌋ = 5179139571476070 := by
      norm_num
    have hrhe : roundHalfEven (207165582859042816 / 40 : ℚ)
        = 5179139571476070 := by
      unfold roundHalfEven
      rw [hf]
      norm_num
    rw [hrhe]
    norm_num
  have e2 : floorLog2 (64739244643450875 / 1125899906842624) = 5 := by
    apply floorLog2_eq
    · norm_num
    · norm_num
    · norm_num
    · norm_num
    · norm_num
  have f2 : fl64 (5179139571476070 * (2 : ℚ) ^ (-(53) : ℤ) * 100)
      = 8092405580431359 * (2 : ℚ) ^ (-(47) : ℤ) := by
    rw [show (5179139571476070 : ℚ) * (2 : ℚ) ^ (-(53) : ℤ) * 100
      = 64739244643450875 / 1125899906842624 by norm_num]
    simp only [fl64]
    rw [if_neg (by norm_num :
      ¬((64739244643450875 / 1125899906842624 : ℚ) ≤ 0)), e2]
    rw [show ((5 : ℤ) - 52) = (-(47) : ℤ) by norm_num]
    rw [show (64739244643450875 / 1125899906842624 : ℚ)
        / (2 : ℚ) ^ (-(47) : ℤ) = 64739244643450875 / 8 by norm_num]
    have hf : ⌊(64739244643450875 / 8 : ℚ)⌋ = 8092405580431359 := by
      norm_num
    have hrhe : roundHalfEven (64739244643450875 / 8 : ℚ)
        = 8092405580431359 := by
      unfold roundHalfEven
      rw [hf]
      norm_num
    rw [hrhe]
    norm_num
  have f3 : percentValue 40 17 = 8092405580431359 * (2 : ℚ) ^ (-(47) : ℤ) := by
    rw [percentValue]
    rw [show (((40 : Nat) : ℚ) - ((17 : Nat) : ℚ)) / ((40 : Nat) : ℚ)
      = 23 / 40 by norm_num]
    rw [f1, f2]
  have hround : roundQ (8092405580431359 * (2 : ℚ) ^ (-(47) : ℤ)) = 57 := by
    unfold roundQ
    rw [show (8092405580431359 : ℚ) * (2 : ℚ) ^ (-(47) : ℤ) + 1 / 2
      = 8162774324609023 / 140737488355328 by norm_num]
    norm_num
  refine ⟨by rw [hs], by rw [hs], ?_, by unfold roundQ; norm_num⟩
  simp only [cardPercent]
  rw [hs]
  rw [if_neg (by norm_num : ¬((40 : Nat) = 0))]
  rw [f3, hround]

/-- Guarded form of `percentPipeline_close`, matching the shape of
`cardPercent` and `monthlyPercent` with a positive conducted count. -/
theorem percentGuarded_close (c a : Nat) (h : 0 < c) (hac : a ≤ c)
    (hc53 : c ≤ 2 ^ 53) :
    |(if c = 0 then 0 else roundQ (percentValue c a))
      - roundQ (100 * ((c : ℚ) - a) / c)| ≤ 1 := by
  rw [if_neg h.ne']
  exact percentPipeline_close c a hac h hc53

/-- C9 amended: the displayed percentage — cumulative
(`updateCardStats`) and monthly (`renderCalendar`) — is 0 when
conducted is 0 (the zero guard means the division is never evaluated
at a zero denominator); when conducted is positive it is `Math.round`
of the float64-evaluated `((conducted - absent) / conducted) * 100`,
which lies within one unit of the exact
`round(100 * (conducted - absent) / conducted)` and can differ from
it (57 versus 58 at 40 conducted, 17 absent).  The hypotheses
`conducted ≤ 2^53` hold for every value a JS number counter can
represent exactly. -/
theorem percent_float_spec (attendanceData offDaysData : Store)
    (classId : String) (month year : Nat) (semStart semEnd today : Date)
    (hc : (getStats attendanceData offDaysData classId semStart semEnd
      today).totalConducted ≤ 2 ^ 53)
    (hm : (getMonthlyStats attendanceData offDaysData classId month year
      semStart semEnd today).totalConducted ≤ 2 ^ 53) :
    ((getStats attendanceData offDaysData classId semStart semEnd
        today).totalConducted = 0 →
      cardPercent attendanceData offDaysData classId semStart semEnd today
        = 0) ∧
    (0 < (getStats attendanceData offDaysData classId semStart semEnd
        today).totalConducted →
      |cardPercent attendanceData offDaysData classId semStart semEnd today
        - roundQ (100 * (((getStats attendanceData offDaysData classId
            semStart semEnd today).totalConducted : ℚ)
          - ((getStats attendanceData offDaysData classId semStart semEnd
            today).totalAbsent : ℚ))
        / ((getStats attendanceData offDaysData classId semStart semEnd
          today).totalConducted : ℚ))| ≤ 1) ∧
    ((getMonthlyStats attendanceData offDaysData classId month year semStart
        semEnd today).totalConducted = 0 →
      monthlyPercent attendanceData offDaysData classId month year semStart
        semEnd today = 0) ∧
    (0 < (getMonthlyStats attendanceData offDaysData classId month year
        semStart semEnd today).totalConducted →
      |monthlyPercent attendanceData offDaysData classId month year semStart
          semEnd today
        - roundQ (100 * (((getMonthlyStats attendanceData offDaysData
            classId month year semStart semEnd today).totalConducted : ℚ)
          - ((getMonthlyStats attendanceData offDaysData classId month year
            semStart semEnd today).totalAbsent : ℚ))
        / ((getMonthlyStats attendanceData offDaysData classId month year
          semStart semEnd today).totalConducted : ℚ))| ≤ 1) := by
  refine ⟨?_, ?_, ?_, ?_⟩
  · intro h
    simp only [cardPercent, h, if_pos]
  · intro h
    exact percentGuarded_close _ _ h
      (getStats_absent_le attendanceData offDaysData classId semStart
        semEnd today) hc
  · intro h
    simp only [monthlyPercent, h, if_pos]
  · intro h
    exact percentGuarded_close _ _ h
      (getMonthlyStats_absent_le attendanceData offDaysData classId month
        year semStart semEnd today) hm

/-- C9 witness: the amended theorem applied at concrete stores and a
concrete today with a positive conducted count. -/
theorem percent_float_spec_witness :
    0 < (getStats [] [] "cs301" semesterStart semesterEnd
        ⟨2025, 7, 15⟩).totalConducted ∧
    |cardPercent [] [] "cs301" semesterStart semesterEnd ⟨2025, 7, 15⟩
      - roundQ (100 * (((getStats [] [] "cs301" semesterStart semesterEnd
          ⟨2025, 7, 15⟩).totalConducted : ℚ)
        - ((getStats [] [] "cs301" semesterStart semesterEnd
          ⟨2025, 7, 15⟩).totalAbsent : ℚ))
      / ((getStats [] [] "cs301" semesterStart semesterEnd
        ⟨2025, 7, 15⟩).totalConducted : ℚ))| ≤ 1 :=
  ⟨by decide,
    (percent_float_spec [] [] "cs301" 0 2025 semesterStart semesterEnd
      ⟨2025, 7, 15⟩ (by decide) (by decide)).2.1 (by decide)⟩

/-! ## Claim C4: days outside the semester window -/

theorem Date.ltb_mk_false_iff (y m d : Nat) (b : Date) :
    Date.ltb ⟨y, m, d⟩ b = false
      ↔ ¬(y < b.year ∨ (y = b.year ∧ (m < b.month ∨ (m = b.month ∧
          d < b.day)))) := by
  simp [Date.ltb]

theorem Date.ltb_false_mk_iff (a : Date) (y m d : Nat) :
    Date.ltb a ⟨y, m, d⟩ = false
      ↔ ¬(a.year < y ∨ (a.year = y ∧ (a.month < m ∨ (a.month = m ∧
          a.day < d)))) := by
  simp [Date.ltb]

theorem getStats_conducted_eq_length (attendanceData offDaysData : Store)
    (classId : String) (semStart semEnd today : Date) :
    (getStats attendanceData offDaysData classId semStart semEnd
        today).totalConducted
      = (cumCountedDates offDaysData classId semStart semEnd today).length := by
  simp only [getStats, foldl_monthBody_sum, cumCountedDates,
    List.length_flatMap]
  refine congrArg List.sum (List.map_congr_left ?_)
  intro idx hidx
  simp only [Function.comp, List.length_map]
  simp only [monthBody, monthlyCountedDays]
  rw [foldl_dayStep_conducted]
  simp

/-- Every day counted by a month of the `getMonthlyStats` loop lies
inside the semester window, provided the month overlaps the window
(`isMonthAllowed`) — which is the only situation in which
`renderCalendar` computes monthly statistics. -/
theorem monthly_counted_in_window (semStart semEnd today : Date)
    (offs : List Nat) (year month d : Nat)
    (hallow : isMonthAllowed semStart semEnd year month = true)
    (hd : d ∈ monthlyCountedDays offs year month
      (statsStartDay semStart year month)
      (statsEndDay semEnd today year month)) :
    Date.ltb ⟨year, month, d⟩ semStart = false ∧
    Date.ltb semEnd ⟨year, month, d⟩ = false := by
  unfold monthlyCountedDays at hd
  obtain ⟨hd1, _⟩ := List.mem_filter.mp hd
  unfold dayRange at hd1
  have hdr := List.mem_range'_1.mp hd1
  have hal : Date.ltb ⟨year, month, daysInMonth year month⟩ semStart = false
      ∧ Date.ltb semEnd ⟨year, month, 1⟩ = false := by
    simp only [isMonthAllowed] at hallow
    constructor
    · rcases hb : Date.ltb ⟨year, month, daysInMonth year month⟩ semStart
        with _ | _
      · rfl
      · rw [hb] at hallow
        simp at hallow
    · rcases hb : Date.ltb semEnd ⟨year, month, 1⟩ with _ | _
      · rfl
      · rw [hb] at hallow
        simp at hallow
  have hal1 := (Date.ltb_mk_false_iff _ _ _ _).mp hal.1
  have hal2 := (Date.ltb_false_mk_iff _ _ _ _).mp hal.2
  constructor
  · rw [Date.ltb_mk_false_iff]
    simp only [statsStartDay] at hdr
    split_ifs at hdr <;> omega
  · rw [Date.ltb_false_mk_iff]
    simp only [statsEndDay] at hdr
    split_ifs at hdr <;> omega

/-- Every date `getStats` counts into `totalConducted` lies inside the
semester window. -/
theorem cum_counted_in_window (offDaysData : Store) (classId : String)
    (semStart semEnd today : Date) (x : Date)
    (hS : semStart.month ≤ 11) (hE : semEnd.month ≤ 11)
    (hT : today.month ≤ 11)
    (hx : x ∈ cumCountedDates offDaysData classId semStart semEnd today) :
    Date.ltb x semStart = false ∧ Date.ltb semEnd x = false := by
  unfold cumCountedDates at hx
  rw [List.mem_flatMap] at hx
  obtain ⟨idx, hidx, hx⟩ := hx
  rw [List.mem_map] at hx
  obtain ⟨d, hd, hxd⟩ := hx
  subst hxd
  unfold monthRange at hidx
  have hmem := List.mem_range'_1.mp hidx
  unfold monthlyCountedDays at hd
  obtain ⟨hd1, _⟩ := List.mem_filter.mp hd
  unfold dayRange at hd1
  have hdr := List.mem_range'_1.mp hd1
  constructor
  · rw [Date.ltb_mk_false_iff]
    simp only [statsStartDay] at hdr
    split_ifs at hdr <;> omega
  · rw [Date.ltb_false_mk_iff]
    simp only [statsEndDay] at hdr
    by_cases hlt : Date.ltb today semEnd = true
    · have hlex := (Date.ltb_iff today semEnd).mp hlt
      simp only [endStatsDate, hlt, if_true] at hmem hdr
      split_ifs at hdr <;> omega
    · have hlt' : Date.ltb today semEnd = false := by
        rcases hb : Date.ltb today semEnd with _ | _
        · rfl
        · exact (hlt hb).elim
      have hlex := (Date.ltb_false_iff today semEnd).mp hlt'
      simp only [endStatsDate, hlt', Bool.false_eq_true, if_false]
        at hmem hdr
      split_ifs at hdr <;> omega

/-- C4 counterexample: June 5, 2025 lies strictly before the semester
window, yet with today = Dec 1, 2025 the `getMonthlyStats` loop for
June 2025 counts it (a month with no semester overlap, which the
calendar never renders): conducted is 21, not 0. -/
theorem outside_counted_monthly_counterexample :
    Date.ltb ⟨2025, 5, 5⟩ semesterStart = true ∧
    (5 ∈ monthlyCountedDays (getDays ([] : Store) "cs301" (monthKey 2025 5))
        2025 5 (statsStartDay semesterStart 2025 5)
        (statsEndDay semesterEnd ⟨2025, 11, 1⟩ 2025 5)) ∧
    (getMonthlyStats [] [] "cs301" 5 2025 semesterStart semesterEnd
        ⟨2025, 11, 1⟩).totalConducted = 21 := by decide

/-- C4 amended: a date strictly outside the semester window classifies
as OutsideSemester, is never counted into the cumulative conducted
total, and is never counted into the monthly conducted total of any
month overlapping the window (the only months `renderCalendar` computes
monthly statistics for); the two conducted counters are exactly the
sizes of the respective counted-day lists. -/
theorem outsideSemester_excluded (attendanceData offDaysData : Store)
    (classId : String) (year month d : Nat) (today : Date)
    (hT : today.month ≤ 11)
    (hout : Date.ltb ⟨year, month, d⟩ semesterStart = true
      ∨ Date.ltb semesterEnd ⟨year, month, d⟩ = true) :
    renderDayState attendanceData offDaysData classId year month d
        semesterStart semesterEnd today = .OutsideSemester
    ∧ (getMonthlyStats attendanceData offDaysData classId month year
        semesterStart semesterEnd today).totalConducted
      = (monthlyCountedDays (getDays offDaysData classId (monthKey year month))
          year month (statsStartDay semesterStart year month)
          (statsEndDay semesterEnd today year month)).length
    ∧ (isMonthAllowed semesterStart semesterEnd year month = true →
        d ∉ monthlyCountedDays (getDays offDaysData classId
            (monthKey year month)) year month
          (statsStartDay semesterStart year month)
          (statsEndDay semesterEnd today year month))
    ∧ (getStats attendanceData offDaysData classId semesterStart semesterEnd
        today).totalConducted
      = (cumCountedDates offDaysData classId semesterStart semesterEnd
          today).length
    ∧ (⟨year, month, d⟩ : Date) ∉ cumCountedDates offDaysData classId
        semesterStart semesterEnd today := by
  refine ⟨?_, getMonthlyStats_conducted _ _ _ _ _ _ _ _, ?_,
    getStats_conducted_eq_length _ _ _ _ _ _, ?_⟩
  · unfold renderDayState
    rcases hout with h | h
    · simp [Date.leb, h]
    · simp [Date.leb, h]
  · intro hallow hd
    have hw := monthly_counted_in_window semesterStart semesterEnd today _
      year month d hallow hd
    rcases hout with h | h
    · rw [hw.1] at h
      exact Bool.false_ne_true h
    · rw [hw.2] at h
      exact Bool.false_ne_true h
  · intro hx
    have hw := cum_counted_in_window offDaysData classId semesterStart
      semesterEnd today _ (by decide) (by decide) hT hx
    rcases hout with h | h
    · rw [hw.1] at h
      exact Bool.false_ne_true h
    · rw [hw.2] at h
      exact Bool.false_ne_true h

/-- C4 witness: the amended theorem applied to June 5, 2025 (before
the window) with a concrete today. -/
theorem outsideSemester_excluded_witness :
    (⟨2025, 5, 5⟩ : Date) ∉ cumCountedDates ([] : Store) "cs301"
      semesterStart semesterEnd ⟨2025, 7, 15⟩ :=
  (outsideSemester_excluded [] [] "cs301" 2025 5 5 ⟨2025, 7, 15⟩
    (by decide) (Or.inl (by decide))).2.2.2.2

end Attendance
